import Mathlib

/-!
Verification of the retrieval core and evaluation aggregation layer of the
RAG pipeline repository (scripts/rag_pipeline.py and
scripts/evaluation_framework.py), as a shallow embedding in Lean 4.

Modelling conventions:
* Python floats are modelled as rationals; the float value NaN, which
  np.mean produces on an empty input, is modelled as the value none of
  Option.
* Python exceptions are modelled with Except; the error constructors name
  the concrete Python exception raised by the source line they model.
* np.random draws are modelled as explicit environment inputs (functions
  supplied to the embedded operation), since the random source is outside
  the program state.
* The word list of a document stands for processed_content.split(); every
  claim quantifies over the word list, so the split itself is not re-modelled.
-/

/-! ## Data model: documents and chunks (rag_pipeline.py) -/

/-- A loaded and preprocessed document. The field words models
processed_content.split() as used by chunk_documents. -/
structure Document where
  id : String
  source : String
  words : List String
deriving DecidableEq

/-- A chunk record as built in chunk_documents. -/
structure Chunk where
  chunk_id : String
  parent_doc_id : String
  content : String
  source : String
  start_idx : Nat
  end_idx : Nat
  word_count : Nat
deriving DecidableEq

/-- Python exceptions raised by the modelled code paths of rag_pipeline.py. -/
inductive PyError where
  | valueError (msg : String)
  | keyError (key : String)
deriving DecidableEq

/-- The start indices produced by iterating range(0, stop, step) for a
positive step: the multiples of step below stop. -/
def chunkStarts (stop s : Nat) : List Nat :=
  (List.range ((stop + s - 1) / s)).map (fun q => q * s)

/-- Python range(0, stop, step): raises ValueError for step = 0, is empty
for negative step (start 0 never exceeds a nonnegative stop), and yields
the multiples of step below stop otherwise. -/
def pyRangeStarts (stop : Nat) (step : Int) : Except PyError (List Nat) :=
  if step = 0 then .error (.valueError "range() arg 3 must not be zero")
  else if step < 0 then .ok []
  else .ok (chunkStarts stop step.toNat)

/-- The chunk record built for window start i of a document, with global
chunk counter value cid. Mirrors the dict literal in chunk_documents:
chunk_words = words[i : i + chunk_size], end_idx = min(i + chunk_size, len(words)). -/
def mkChunk (doc : Document) (cid : Nat) (chunk_size : Nat) (i : Nat) : Chunk :=
  let chunk_words := (doc.words.drop i).take chunk_size
  { chunk_id := "chunk_" ++ toString cid
    parent_doc_id := doc.id
    content := String.intercalate " " chunk_words
    source := doc.source
    start_idx := i
    end_idx := min (i + chunk_size) doc.words.length
    word_count := chunk_words.length }

/-- The chunks contributed by one document: the loop
for i in range(0, len(words), chunk_size - overlap) of chunk_documents,
with the running global chunk counter starting at cid0. -/
def chunkDoc (doc : Document) (chunk_size overlap : Nat) (cid0 : Nat) :
    Except PyError (List Chunk) :=
  match pyRangeStarts doc.words.length ((chunk_size : Int) - (overlap : Int)) with
  | .error e => .error e
  | .ok starts => .ok (starts.enum.map (fun p => mkChunk doc (cid0 + p.1) chunk_size p.2))

/-- The document loop of chunk_documents, threading the global chunk_id
counter across documents. -/
def chunkDocsGo (chunk_size overlap : Nat) : List Document → Nat → Except PyError (List Chunk)
  | [], _ => .ok []
  | d :: rest, cid =>
    match chunkDoc d chunk_size overlap cid with
    | .error e => .error e
    | .ok cl =>
      match chunkDocsGo chunk_size overlap rest (cid + cl.length) with
      | .error e => .error e
      | .ok rl => .ok (cl ++ rl)

/-- RAGPipeline.chunk_documents: split every document into overlapping
windows of chunk_size words advancing by chunk_size - overlap. -/
def chunk_documents (docs : List Document) (chunk_size overlap : Nat) :
    Except PyError (List Chunk) :=
  chunkDocsGo chunk_size overlap docs 0

/-- Closed form of the chunk list of one document when the window step
s = chunk_size - overlap is positive. -/
def docChunkList (doc : Document) (chunk_size s cid0 : Nat) : List Chunk :=
  (List.range ((doc.words.length + s - 1) / s)).map
    (fun q => mkChunk doc (cid0 + q) chunk_size (q * s))

lemma enum_map_mul (m s : Nat) :
    ((List.range m).map (fun q => q * s)).enum = (List.range m).map (fun q => (q, q * s)) := by
  apply List.ext_getElem
  · simp
  · intro i h1 h2
    simp

lemma chunkDoc_eq_docChunkList (doc : Document) (chunk_size overlap cid0 : Nat)
    (hov : overlap < chunk_size) :
    chunkDoc doc chunk_size overlap cid0 =
      .ok (docChunkList doc chunk_size (chunk_size - overlap) cid0) := by
  have hstep : ((chunk_size : Int) - (overlap : Int)) = ((chunk_size - overlap : Nat) : Int) := by
    omega
  have hs : (0 : Int) < ((chunk_size - overlap : Nat) : Int) := by
    have : 0 < chunk_size - overlap := by omega
    exact_mod_cast this
  unfold chunkDoc pyRangeStarts
  rw [hstep]
  rw [if_neg (by omega), if_neg (by omega)]
  unfold chunkStarts docChunkList
  rw [Int.toNat_natCast]
  dsimp only
  rw [enum_map_mul, List.map_map]
  rfl

lemma chunk_documents_single (doc : Document) (chunk_size overlap : Nat)
    (hov : overlap < chunk_size) :
    chunk_documents [doc] chunk_size overlap =
      .ok (docChunkList doc chunk_size (chunk_size - overlap) 0) := by
  unfold chunk_documents chunkDocsGo
  rw [chunkDoc_eq_docChunkList doc chunk_size overlap 0 hov]
  simp [chunkDocsGo]

lemma mem_docChunkList {doc : Document} {chunk_size s cid0 : Nat} {c : Chunk} :
    c ∈ docChunkList doc chunk_size s cid0 ↔
      ∃ q, q < (doc.words.length + s - 1) / s ∧ c = mkChunk doc (cid0 + q) chunk_size (q * s) := by
  unfold docChunkList
  simp only [List.mem_map, List.mem_range]
  constructor
  · rintro ⟨q, hq, rfl⟩
    exact ⟨q, hq, rfl⟩
  · rintro ⟨q, hq, rfl⟩
    exact ⟨q, hq, rfl⟩

lemma start_lt_of_lt_numChunks {n s q : Nat} (hs : 0 < s)
    (hq : q < (n + s - 1) / s) : q * s < n := by
  have h1 : q + 1 ≤ (n + s - 1) / s := hq
  have h2 : (q + 1) * s ≤ n + s - 1 := (Nat.le_div_iff_mul_le hs).mp h1
  have h3 : q * s + s ≤ n + s - 1 := by
    have : (q + 1) * s = q * s + s := by ring
    omega
  omega

lemma div_lt_numChunks {n s j : Nat} (hs : 0 < s) (hj : j < n) :
    j / s < (n + s - 1) / s := by
  have h1 : (j / s + 1) * s ≤ n + s - 1 := by
    have hd : j / s * s ≤ j := Nat.div_mul_le_self j s
    have : (j / s + 1) * s = j / s * s + s := by ring
    omega
  have := (Nat.le_div_iff_mul_le hs).mpr h1
  omega

lemma one_le_numChunks {n s : Nat} (hs : 0 < s) (hn : 0 < n) :
    1 ≤ (n + s - 1) / s := by
  have h1 : 1 * s ≤ n + s - 1 := by omega
  exact (Nat.le_div_iff_mul_le hs).mpr h1

lemma mkChunk_fields (doc : Document) (cid chunk_size i : Nat) :
    (mkChunk doc cid chunk_size i).start_idx = i ∧
    (mkChunk doc cid chunk_size i).end_idx = min (i + chunk_size) doc.words.length ∧
    (mkChunk doc cid chunk_size i).word_count = min chunk_size (doc.words.length - i) := by
  refine ⟨rfl, rfl, ?_⟩
  simp [mkChunk]

/-! ## Chunker claims -/

/-- A five-word document used as the concrete input of the chunker
counterexamples. -/
def exDoc5 : Document := { id := "doc_1", source := "s.txt", words := ["a", "b", "c", "d", "e"] }

/-- Claim C1, counterexample: chunking a five-word document with
chunk_size = 3 and overlap = 2 yields five chunks of word counts
3, 3, 3, 2, 1 — the fourth chunk has only 2 words although it is not the
last chunk, so it is false that every chunk except possibly the last
contains exactly chunk_size words. -/
theorem c1_counterexample :
    (chunk_documents [exDoc5] 3 2).map (fun l => l.map (fun c => c.word_count)) =
      .ok [3, 3, 3, 2, 1] := rfl

/-- Claim C1 (amended): for every document and parameters
chunk_size > overlap >= 0 with a non-empty word list, chunk_documents
succeeds and the produced chunks have word ranges [start_idx, end_idx)
that lie inside [0, n) and cover all of [0, n) with no gaps; every chunk
contains exactly min(chunk_size, n - start_idx) words — in particular
exactly chunk_size words whenever its window fits inside the document —
but when overlap > 0 more than one trailing chunk may be shorter than
chunk_size. -/
theorem c1_chunk_coverage (doc : Document) (chunk_size overlap : Nat)
    (hov : overlap < chunk_size) (hw : doc.words ≠ []) :
    ∃ l, chunk_documents [doc] chunk_size overlap = .ok l ∧ l ≠ [] ∧
      (∀ c ∈ l, c.start_idx < c.end_idx ∧ c.end_idx ≤ doc.words.length ∧
        c.end_idx = min (c.start_idx + chunk_size) doc.words.length ∧
        c.word_count = min chunk_size (doc.words.length - c.start_idx) ∧
        c.end_idx = c.start_idx + c.word_count) ∧
      (∀ j, j < doc.words.length → ∃ c ∈ l, c.start_idx ≤ j ∧ j < c.end_idx) := by
  have hs : 0 < chunk_size - overlap := by omega
  have hn : 0 < doc.words.length := List.length_pos.mpr hw
  refine ⟨docChunkList doc chunk_size (chunk_size - overlap) 0,
    chunk_documents_single doc chunk_size overlap hov, ?_, ?_, ?_⟩
  · have hne : 1 ≤ (doc.words.length + (chunk_size - overlap) - 1) / (chunk_size - overlap) :=
      one_le_numChunks hs hn
    unfold docChunkList
    intro hnil
    have := congrArg List.length hnil
    simp at this
    omega
  · intro c hc
    obtain ⟨q, hq, rfl⟩ := mem_docChunkList.mp hc
    have hstart : q * (chunk_size - overlap) < doc.words.length :=
      start_lt_of_lt_numChunks hs hq
    obtain ⟨h1, h2, h3⟩ := mkChunk_fields doc (0 + q) chunk_size (q * (chunk_size - overlap))
    rw [h1, h2, h3]
    omega
  · intro j hj
    set s := chunk_size - overlap with hsdef
    have hmem : mkChunk doc (0 + j / s) chunk_size (j / s * s) ∈
        docChunkList doc chunk_size s 0 :=
      mem_docChunkList.mpr ⟨j / s, div_lt_numChunks hs hj, rfl⟩
    refine ⟨_, hmem, ?_, ?_⟩
    · obtain ⟨h1, _, _⟩ := mkChunk_fields doc (0 + j / s) chunk_size (j / s * s)
      rw [h1]
      exact Nat.div_mul_le_self j s
    · obtain ⟨_, h2, _⟩ := mkChunk_fields doc (0 + j / s) chunk_size (j / s * s)
      rw [h2]
      have hmod : j % s < s := Nat.mod_lt j hs
      have hdm : s * (j / s) + j % s = j := Nat.div_add_mod j s
      have hcomm : j / s * s = s * (j / s) := Nat.mul_comm _ _
      omega

/-- Claim C1 (amended), witness at the concrete input: document of five
words, chunk_size = 3, overlap = 2. -/
theorem c1_chunk_coverage_witness :
    (2 < 3 ∧ exDoc5.words ≠ []) ∧
    (∃ l, chunk_documents [exDoc5] 3 2 = .ok l ∧ l ≠ [] ∧
      (∀ c ∈ l, c.start_idx < c.end_idx ∧ c.end_idx ≤ exDoc5.words.length ∧
        c.end_idx = min (c.start_idx + 3) exDoc5.words.length ∧
        c.word_count = min 3 (exDoc5.words.length - c.start_idx) ∧
        c.end_idx = c.start_idx + c.word_count) ∧
      (∀ j, j < exDoc5.words.length → ∃ c ∈ l, c.start_idx ≤ j ∧ j < c.end_idx)) :=
  ⟨⟨by decide, by decide⟩, c1_chunk_coverage exDoc5 3 2 (by decide) (by decide)⟩

lemma chunkDocsGo_neg_step (chunk_size overlap : Nat) (hlt : chunk_size < overlap) :
    ∀ (docs : List Document) (cid : Nat),
      chunkDocsGo chunk_size overlap docs cid = .ok [] := by
  intro docs
  induction docs with
  | nil => intro cid; rfl
  | cons d rest ih =>
    intro cid
    unfold chunkDocsGo chunkDoc pyRangeStarts
    rw [if_neg (by omega), if_pos (by omega)]
    dsimp only
    rw [List.enum_nil, List.map_nil]
    simp only [List.length_nil]
    rw [ih (cid + 0)]
    rfl

/-- Claim C6, counterexample: calling the chunker with
chunk_size = 40 < overlap = 50 on a non-empty document set does not fail
at all — it returns an empty chunk list — so it is false that
chunk_size <= overlap fails with InvalidConfiguration for every document
set (no InvalidConfiguration error exists in the code). -/
theorem c6_counterexample : chunk_documents [exDoc5] 40 50 = .ok [] := rfl

/-- Claim C6 (amended): with chunk_size = overlap and at least one
document, chunk_documents raises ValueError (range() arg 3 must not be
zero), the error the zero window step actually produces; with
chunk_size < overlap it succeeds and returns the empty chunk list (the
negative range step yields no windows); with no documents it succeeds
regardless of the parameters. No InvalidConfiguration error exists. -/
theorem c6_invalid_step (docs : List Document) (chunk_size overlap : Nat) :
    (docs ≠ [] → chunk_documents docs chunk_size chunk_size =
      .error (.valueError "range() arg 3 must not be zero")) ∧
    (chunk_size < overlap → chunk_documents docs chunk_size overlap = .ok []) ∧
    (chunk_documents [] chunk_size overlap = .ok []) := by
  refine ⟨?_, ?_, rfl⟩
  · intro hne
    obtain ⟨d, rest, rfl⟩ := List.exists_cons_of_ne_nil hne
    unfold chunk_documents chunkDocsGo chunkDoc pyRangeStarts
    rw [if_pos (by omega)]
  · intro hlt
    exact chunkDocsGo_neg_step chunk_size overlap hlt docs 0

/-- Claim C6 (amended), witness: with the five-word document,
chunk_size = overlap = 40 raises ValueError and chunk_size = 40 <
overlap = 50 returns the empty chunk list. -/
theorem c6_invalid_step_witness :
    ([exDoc5] ≠ ([] : List Document) ∧ 40 < 50) ∧
    ((([exDoc5] : List Document) ≠ [] → chunk_documents [exDoc5] 40 40 =
      .error (.valueError "range() arg 3 must not be zero")) ∧
    (40 < 50 → chunk_documents [exDoc5] 40 50 = .ok []) ∧
    (chunk_documents [] 40 50 = .ok [])) :=
  ⟨⟨by decide, by decide⟩, c6_invalid_step [exDoc5] 40 50⟩

/-- Claim C7, counterexample: the five-word document chunked with
chunk_size = 10 and overlap = 8 (valid parameters, 0 < 5 < 10) yields
three chunks, not exactly one, because the window advances by
chunk_size - overlap = 2 < 5 words per step. -/
theorem c7_counterexample :
    (chunk_documents [exDoc5] 10 8).map (fun l => l.length) = .ok 3 := rfl

/-- Claim C7 (amended): for every document whose word count n satisfies
0 < n < chunk_size and valid parameters chunk_size > overlap >= 0, the
first chunk spans the whole document (word range [0, n)); it is the only
chunk if and only if the window step chunk_size - overlap is at least n
(in particular whenever overlap = 0). -/
theorem c7_small_doc (doc : Document) (chunk_size overlap : Nat)
    (hov : overlap < chunk_size) (hn : 0 < doc.words.length)
    (hlt : doc.words.length < chunk_size) :
    ∃ l, chunk_documents [doc] chunk_size overlap = .ok l ∧
      (∃ c, l.head? = some c ∧ c.start_idx = 0 ∧ c.end_idx = doc.words.length ∧
        c.word_count = doc.words.length) ∧
      (l.length = 1 ↔ doc.words.length ≤ chunk_size - overlap) := by
  have hs : 0 < chunk_size - overlap := by omega
  set s := chunk_size - overlap with hsdef
  set n := doc.words.length with hndef
  set m := (n + s - 1) / s with hmdef
  have hm : 1 ≤ m := one_le_numChunks hs hn
  refine ⟨docChunkList doc chunk_size s 0,
    chunk_documents_single doc chunk_size overlap hov, ?_, ?_⟩
  · obtain ⟨m1, hm1⟩ : ∃ m1, m = m1 + 1 := ⟨m - 1, by omega⟩
    refine ⟨mkChunk doc (0 + 0) chunk_size (0 * s), ?_, ?_, ?_, ?_⟩
    · unfold docChunkList
      rw [← hndef, ← hmdef, hm1, List.range_succ_eq_map]
      rfl
    · show 0 * s = 0
      exact Nat.zero_mul s
    · obtain ⟨h1, h2, h3⟩ := mkChunk_fields doc (0 + 0) chunk_size (0 * s)
      rw [h2, ← hndef]
      have hz : 0 * s = 0 := Nat.zero_mul s
      omega
    · obtain ⟨h1, h2, h3⟩ := mkChunk_fields doc (0 + 0) chunk_size (0 * s)
      rw [h3, ← hndef]
      have hz : 0 * s = 0 := Nat.zero_mul s
      omega
  · have hlen : (docChunkList doc chunk_size s 0).length = m := by
      unfold docChunkList
      rw [← hndef, ← hmdef]
      simp
    rw [hlen]
    constructor
    · intro hm1
      have h2 : m < 2 := by omega
      have h3 : n + s - 1 < 2 * s := (Nat.div_lt_iff_lt_mul hs).mp h2
      omega
    · intro hns
      have h2 : n + s - 1 < 2 * s := by omega
      have h3 : m < 2 := (Nat.div_lt_iff_lt_mul hs).mpr h2
      omega

/-- Claim C7 (amended), witness: the five-word document with
chunk_size = 10 and overlap = 3 yields exactly one chunk spanning the
whole document, and the equivalence 1 chunk iff step >= word count holds. -/
theorem c7_small_doc_witness :
    (3 < 10 ∧ 0 < exDoc5.words.length ∧ exDoc5.words.length < 10) ∧
    (∃ l, chunk_documents [exDoc5] 10 3 = .ok l ∧
      (∃ c, l.head? = some c ∧ c.start_idx = 0 ∧ c.end_idx = exDoc5.words.length ∧
        c.word_count = exDoc5.words.length) ∧
      (l.length = 1 ↔ exDoc5.words.length ≤ 10 - 3)) :=
  ⟨⟨by decide, by decide, by decide⟩, c7_small_doc exDoc5 10 3 (by decide) (by decide) (by decide)⟩

/-! ## Data model: vector database and similarity search (rag_pipeline.py) -/

/-- A result row of similarity_search: the chunk record spread together
with similarity_score and the dense 1-based rank. -/
structure SearchResult where
  chunk : Chunk
  similarity_score : ℚ
  rank : Nat
deriving DecidableEq

/-- The vector database dict built by build_vector_database (the
index_metadata entries carry no behaviour and are not modelled). -/
structure VectorDB where
  chunks : List Chunk
  embeddings : List (List ℚ)
deriving DecidableEq

/-- The mutable state of a RAGPipeline instance. The empty dict that
RAGPipeline.__init__ assigns to vector_db has no "embeddings" key, which
is modelled as none. -/
structure PipelineState where
  documents : List Document
  vector_db : Option VectorDB
deriving DecidableEq

/-- The state of a pipeline right after RAGPipeline.__init__. -/
def initState : PipelineState := { documents := [], vector_db := none }

/-- RAGPipeline.build_vector_database: store chunks and embeddings in the
vector_db dict. -/
def build_vector_database (st : PipelineState) (chunks : List Chunk)
    (embeddings : List (List ℚ)) : PipelineState :=
  { st with vector_db := some { chunks := chunks, embeddings := embeddings } }

/-- The only insertion of a vector into the embedding store in the code:
embeddings.append(embedding) in generate_embeddings. It performs no
dimension check and cannot fail. -/
def insertEmbedding (embeddings : List (List ℚ)) (embedding : List ℚ) : List (List ℚ) :=
  embeddings ++ [embedding]

/-- np.random.rand(384): the 384 components of draw number i are taken
from the environment function rand. -/
def npRandRow (rand : Nat → Nat → ℚ) (i : Nat) : List ℚ :=
  (List.range 384).map (rand i)

/-- embedding / np.linalg.norm(embedding): componentwise division by the
Euclidean norm. The norm itself is a float computed with a square root,
so its value nrm is supplied by the environment; only the componentwise
division shape matters for the claims. -/
def npNormalize (nrm : ℚ) (v : List ℚ) : List ℚ :=
  v.map (fun x => x / nrm)

/-- RAGPipeline.generate_embeddings: one normalized 384-component random
draw per chunk, appended in chunk order. -/
def generate_embeddings (chunks : List Chunk) (rand : Nat → Nat → ℚ) (nrm : Nat → ℚ) :
    List (List ℚ) :=
  (List.range chunks.length).map (fun i => npNormalize (nrm i) (npRandRow rand i))

/-- np.dot on equal-length float vectors. -/
def dot (u v : List ℚ) : ℚ := (List.zipWith (fun x y => x * y) u v).sum

/-- The similarities list of similarity_search: enumerate the stored
embeddings and pair each insertion position with its cosine score against
the query embedding. -/
def similarities (embs : List (List ℚ)) (qemb : List ℚ) : List (Nat × ℚ) :=
  embs.enum.map (fun p => (p.1, dot qemb p.2))

/-- The order in which similarities.sort(key=lambda x: x[1], reverse=True)
arranges the scored candidates. Python list.sort is stable, and the
positions produced by enumerate are pairwise distinct, so the stable
descending sort by score alone coincides with sorting by the total
antisymmetric order (score descending, position ascending) modelled here;
the sorted permutation under this order is unique, so any correct sort
computes it. -/
def simOrd (a b : Nat × ℚ) : Prop := b.2 < a.2 ∨ (a.2 = b.2 ∧ a.1 ≤ b.1)

instance : DecidableRel simOrd := fun a b => by
  unfold simOrd
  exact inferInstance

instance : IsTotal (Nat × ℚ) simOrd := by
  constructor
  intro a b
  rcases lt_trichotomy a.2 b.2 with h | h | h
  · exact Or.inr (Or.inl h)
  · rcases le_total a.1 b.1 with h1 | h1
    · exact Or.inl (Or.inr ⟨h, h1⟩)
    · exact Or.inr (Or.inr ⟨h.symm, h1⟩)
  · exact Or.inl (Or.inl h)

instance : IsTrans (Nat × ℚ) simOrd := by
  constructor
  intro a b c hab hbc
  rcases hab with h1 | ⟨he1, hl1⟩
  · rcases hbc with h2 | ⟨he2, hl2⟩
    · exact Or.inl (lt_trans h2 h1)
    · exact Or.inl (he2 ▸ h1)
  · rcases hbc with h2 | ⟨he2, hl2⟩
    · exact Or.inl (he1 ▸ h2)
    · exact Or.inr ⟨he1.trans he2, hl1.trans hl2⟩

/-- similarities.sort(...reverse=True) followed by the top-k slice
similarities[:top_k]. -/
def rankedSimilarities (embs : List (List ℚ)) (qemb : List ℚ) (top_k : Nat) : List (Nat × ℚ) :=
  (List.insertionSort simOrd (similarities embs qemb)).take top_k

/-- The default chunk record, standing in for the out-of-range access
self.vector_db["chunks"][chunk_idx]; every position produced by
rankedSimilarities on a database built by the pipeline is in range. -/
def defaultChunk : Chunk :=
  { chunk_id := "", parent_doc_id := "", content := "", source := "",
    start_idx := 0, end_idx := 0, word_count := 0 }

/-- The result assembly loop of similarity_search: resolve each retained
(position, score) pair to its chunk record and assign rank
len(results) + 1, i.e. the 1-based position in the retained list. -/
def mkResults (db : VectorDB) (top : List (Nat × ℚ)) : List SearchResult :=
  top.enum.map (fun p =>
    { chunk := (db.chunks.get? p.2.1).getD defaultChunk
      similarity_score := p.2.2
      rank := p.1 + 1 })

/-- RAGPipeline.similarity_search: the query embedding qemb is the
normalized np.random.rand(384) draw, supplied by the environment; the
query string itself is only printed, never used. Accessing
self.vector_db["embeddings"] before build_vector_database raises
KeyError. -/
def similarity_search (st : PipelineState) (query : String) (qemb : List ℚ)
    (top_k : Nat) : Except PyError (List SearchResult) :=
  match st.vector_db with
  | none => .error (.keyError "embeddings")
  | some db => .ok (mkResults db (rankedSimilarities db.embeddings qemb top_k))

/-! ## Retrieval claims -/

/-- Claim C4: calling similarity_search on a pipeline state fresh from
RAGPipeline.__init__ (i.e. before build_vector_database has run) fails:
self.vector_db is the empty dict, so self.vector_db["embeddings"] raises
KeyError, the concrete realisation of the IndexNotBuilt failure. -/
theorem c4_search_before_build (query : String) (qemb : List ℚ) (top_k : Nat) :
    similarity_search initState query qemb top_k = .error (.keyError "embeddings") := rfl

/-- Claim C10: the retrieved chunks and scores are independent of the
query string. The query text is only printed; the query embedding comes
from np.random (modelled as the environment input qemb), so two searches
with different query texts but the same state and the same random draw
return identical results. -/
theorem c10_query_independent (st : PipelineState) (q1 q2 : String) (qemb : List ℚ)
    (top_k : Nat) :
    similarity_search st q1 qemb top_k = similarity_search st q2 qemb top_k := rfl

/-- Claim C5, counterexample: appending the 2-component vector [1, 0] to
a store whose established dimension is 3 succeeds and leaves the store
holding vectors of lengths 3 and 2 — no DimensionMismatch failure occurs,
because the code never checks dimensions on insertion. -/
theorem c5_counterexample :
    insertEmbedding [[1, 0, 0]] [1, 0] = [[1, 0, 0], [1, 0]] ∧
    (insertEmbedding [[1, 0, 0]] [1, 0]).map List.length = [3, 2] := ⟨rfl, rfl⟩

/-- Claim C5 (amended): the embedding store performs no dimension
validation at all — insertion is a plain list append that always succeeds
for a vector of any length (no DimensionMismatch error exists in the
code); uniformity of dimension holds anyway for stores the pipeline
builds, because every vector produced by generate_embeddings has exactly
384 components. -/
theorem c5_no_dimension_check (store : List (List ℚ)) (v : List ℚ)
    (chunks : List Chunk) (rand : Nat → Nat → ℚ) (nrm : Nat → ℚ) :
    insertEmbedding store v = store ++ [v] ∧
    (insertEmbedding store v).length = store.length + 1 ∧
    ∀ e ∈ generate_embeddings chunks rand nrm, e.length = 384 := by
  refine ⟨rfl, by simp [insertEmbedding], ?_⟩
  intro e he
  simp only [generate_embeddings, List.mem_map, List.mem_range] at he
  obtain ⟨i, hi, rfl⟩ := he
  simp [npNormalize, npRandRow]

lemma similarities_map_fst (embs : List (List ℚ)) (qemb : List ℚ) :
    (similarities embs qemb).map Prod.fst = List.range embs.length := by
  unfold similarities
  rw [List.map_map]
  have h1 : (Prod.fst ∘ fun p : Nat × List ℚ => (p.1, dot qemb p.2)) = Prod.fst := rfl
  rw [h1, List.enum_map_fst]

lemma mkResults_map_score (db : VectorDB) (top : List (Nat × ℚ)) :
    (mkResults db top).map (fun r => r.similarity_score) = top.map (fun p => p.2) := by
  unfold mkResults
  rw [List.map_map]
  have h1 : ((fun r : SearchResult => r.similarity_score) ∘
      (fun p : Nat × (Nat × ℚ) =>
        ({ chunk := (db.chunks.get? p.2.1).getD defaultChunk
           similarity_score := p.2.2
           rank := p.1 + 1 } : SearchResult))) = (fun p : Nat × (Nat × ℚ) => p.2.2) := rfl
  rw [h1]
  have h2 : (fun p : Nat × (Nat × ℚ) => p.2.2) = (fun p : Nat × ℚ => p.2) ∘ Prod.snd := rfl
  rw [h2, ← List.map_map, List.enum_map_snd]

/-- Claim C2: the sequence returned by similarity_search is ordered by
strictly descending cosine score except that candidates of equal score
appear in order of strictly increasing insertion position (the stable
reverse sort of Python); consequently identical inputs — store state,
query embedding and k — always yield the identical ordered output,
including the order among ties, since the output is a function of those
inputs alone. -/
theorem c2_descending_ties (st : PipelineState) (db : VectorDB) (query : String)
    (qemb : List ℚ) (top_k : Nat) (h : st.vector_db = some db) :
    List.Pairwise (fun a b : Nat × ℚ => b.2 < a.2 ∨ (a.2 = b.2 ∧ a.1 < b.1))
      (rankedSimilarities db.embeddings qemb top_k) ∧
    ∃ rs, similarity_search st query qemb top_k = .ok rs ∧
      rs.map (fun r => r.similarity_score) =
        (rankedSimilarities db.embeddings qemb top_k).map (fun p => p.2) ∧
      List.Pairwise (fun x y : ℚ => y ≤ x) (rs.map (fun r => r.similarity_score)) := by
  have hsorted : List.Sorted simOrd
      (List.insertionSort simOrd (similarities db.embeddings qemb)) :=
    List.sorted_insertionSort simOrd _
  have hp : List.Pairwise simOrd
      (List.insertionSort simOrd (similarities db.embeddings qemb)) := hsorted
  have hperm := List.perm_insertionSort simOrd (similarities db.embeddings qemb)
  have hnd : ((similarities db.embeddings qemb).map Prod.fst).Nodup := by
    rw [similarities_map_fst]
    exact List.nodup_range _
  have hnd2 : ((List.insertionSort simOrd (similarities db.embeddings qemb)).map
      Prod.fst).Nodup := ((hperm.map Prod.fst).symm).nodup hnd
  have hpair_ne : List.Pairwise (fun a b : Nat × ℚ => a.1 ≠ b.1)
      (List.insertionSort simOrd (similarities db.embeddings qemb)) := by
    rw [List.Nodup, List.pairwise_map] at hnd2
    exact hnd2
  have hstrict : List.Pairwise (fun a b : Nat × ℚ => b.2 < a.2 ∨ (a.2 = b.2 ∧ a.1 < b.1))
      (List.insertionSort simOrd (similarities db.embeddings qemb)) := by
    refine (List.Pairwise.and hp hpair_ne).imp ?_
    intro a b hab
    rcases hab with ⟨h1, hne⟩
    rcases h1 with h1 | ⟨he, hle⟩
    · exact Or.inl h1
    · exact Or.inr ⟨he, lt_of_le_of_ne hle hne⟩
  have htake : List.Pairwise (fun a b : Nat × ℚ => b.2 < a.2 ∨ (a.2 = b.2 ∧ a.1 < b.1))
      (rankedSimilarities db.embeddings qemb top_k) :=
    List.Pairwise.sublist (List.take_sublist top_k _) hstrict
  refine ⟨htake, mkResults db (rankedSimilarities db.embeddings qemb top_k), ?_, ?_, ?_⟩
  · unfold similarity_search
    rw [h]
  · exact mkResults_map_score db _
  · rw [mkResults_map_score db _]
    rw [List.pairwise_map]
    refine htake.imp ?_
    intro a b hab
    rcases hab with h1 | ⟨he, _⟩
    · exact le_of_lt h1
    · exact le_of_eq he.symm

/-- A two-vector database and a built pipeline state used as the concrete
inputs of the retrieval witnesses. -/
def exDB : VectorDB := { chunks := [defaultChunk, defaultChunk], embeddings := [[1], [1]] }

/-- A pipeline state whose vector database has been built with exDB. -/
def exState : PipelineState := { documents := [], vector_db := some exDB }

/-- Claim C2, witness at the concrete built state exDB with query
embedding [1] and k = 2 (the two stored vectors tie, exercising the
tie-break by insertion position). -/
theorem c2_descending_ties_witness :
    exState.vector_db = some exDB ∧
    (List.Pairwise (fun a b : Nat × ℚ => b.2 < a.2 ∨ (a.2 = b.2 ∧ a.1 < b.1))
      (rankedSimilarities exDB.embeddings [1] 2) ∧
    ∃ rs, similarity_search exState "q" [1] 2 = .ok rs ∧
      rs.map (fun r => r.similarity_score) =
        (rankedSimilarities exDB.embeddings [1] 2).map (fun p => p.2) ∧
      List.Pairwise (fun x y : ℚ => y ≤ x) (rs.map (fun r => r.similarity_score))) :=
  ⟨rfl, c2_descending_ties exState exDB "q" [1] 2 rfl⟩

/-! ## Data model: evaluation framework (evaluation_framework.py) -/

/-- The np.random.uniform draws made by the five evaluators during one
evaluate call, supplied by the environment. The comments give the uniform
range each draw is taken from in the source. -/
structure EvalEnv where
  relevance : Nat → ℚ
  coherence : ℚ
  query_relevance : ℚ
  fluency : ℚ
  informativeness : ℚ
  hallucination_score : ℚ
  context_coverage : ℚ
  factual_consistency : ℚ
  similarity : Nat → ℚ
  direct_relevance : ℚ
  completeness : ℚ
  specificity : ℚ

/-- An EvaluationResult row. The score is a float that can be NaN
(np.mean of an empty list), modelled as none; the details dict and the
timestamp carry no behaviour touched by any claim and are not modelled. -/
structure EvaluationResult where
  metric_name : String
  score : Option ℚ
deriving DecidableEq

/-- Python exceptions raised by the modelled evaluation code paths:
min() of an empty sequence in ContextRelevanceEvaluator.evaluate, and
np.min of a zero-size array in evaluate_test_set aggregation. -/
inductive EvalError where
  | emptySequenceMin
  | zeroSizeReduction
deriving DecidableEq

/-- np.mean of a float list: NaN (none) on the empty list, the arithmetic
mean otherwise. -/
def npMeanList (xs : List ℚ) : Option ℚ :=
  if xs = [] then none else some (xs.sum / xs.length)

/-- RetrievalAccuracyEvaluator.evaluate: one relevance draw per context
item, score is their np.mean (NaN when the context is empty). -/
def RetrievalAccuracyEvaluator.evaluate (env : EvalEnv) (query response : String)
    (context : List String) (ground_truth : Option String) :
    Except EvalError EvaluationResult :=
  .ok { metric_name := "retrieval_accuracy"
        score := npMeanList ((List.range context.length).map env.relevance) }

/-- GenerationQualityEvaluator.evaluate: np.mean of the four quality
draws. -/
def GenerationQualityEvaluator.evaluate (env : EvalEnv) (query response : String)
    (context : List String) (ground_truth : Option String) :
    Except EvalError EvaluationResult :=
  .ok { metric_name := "generation_quality"
        score := npMeanList [env.coherence, env.query_relevance, env.fluency,
          env.informativeness] }

/-- FaithfulnessEvaluator.evaluate: np.mean of 1 - hallucination_score,
context_coverage and factual_consistency. -/
def FaithfulnessEvaluator.evaluate (env : EvalEnv) (query response : String)
    (context : List String) (ground_truth : Option String) :
    Except EvalError EvaluationResult :=
  .ok { metric_name := "faithfulness"
        score := npMeanList [1 - env.hallucination_score, env.context_coverage,
          env.factual_consistency] }

/-- ContextRelevanceEvaluator.evaluate: one similarity draw per context
item; after the np.mean the source calls min(relevance_scores), which
raises ValueError on an empty sequence, so an empty context is an
error. -/
def ContextRelevanceEvaluator.evaluate (env : EvalEnv) (query response : String)
    (context : List String) (ground_truth : Option String) :
    Except EvalError EvaluationResult :=
  let relevance_scores := (List.range context.length).map env.similarity
  if relevance_scores = [] then .error .emptySequenceMin
  else .ok { metric_name := "context_relevance", score := npMeanList relevance_scores }

/-- AnswerRelevanceEvaluator.evaluate: np.mean of direct_relevance,
completeness and specificity. -/
def AnswerRelevanceEvaluator.evaluate (env : EvalEnv) (query response : String)
    (context : List String) (ground_truth : Option String) :
    Except EvalError EvaluationResult :=
  .ok { metric_name := "answer_relevance"
        score := npMeanList [env.direct_relevance, env.completeness, env.specificity] }

/-- A test case record of the evaluation input format. -/
structure TestCase where
  query : String
  response : String
  context : List String
  ground_truth : Option String
deriving DecidableEq

/-- The per-test-case result dict of evaluate_single_query: one
EvaluationResult per registered evaluator, in the registry order fixed by
RAGEvaluationFramework.__init__. -/
structure CaseResults where
  retrieval_accuracy : EvaluationResult
  generation_quality : EvaluationResult
  faithfulness : EvaluationResult
  context_relevance : EvaluationResult
  answer_relevance : EvaluationResult
deriving DecidableEq

/-- RAGEvaluationFramework.evaluate_single_query: run the five evaluators
of the registry in order on one test case; any raised exception
propagates. -/
def evaluate_single_query (env : EvalEnv) (tc : TestCase) : Except EvalError CaseResults :=
  match RetrievalAccuracyEvaluator.evaluate env tc.query tc.response tc.context tc.ground_truth with
  | .error e => .error e
  | .ok ra =>
    match GenerationQualityEvaluator.evaluate env tc.query tc.response tc.context tc.ground_truth with
    | .error e => .error e
    | .ok gq =>
      match FaithfulnessEvaluator.evaluate env tc.query tc.response tc.context tc.ground_truth with
      | .error e => .error e
      | .ok fa =>
        match ContextRelevanceEvaluator.evaluate env tc.query tc.response tc.context tc.ground_truth with
        | .error e => .error e
        | .ok cr =>
          match AnswerRelevanceEvaluator.evaluate env tc.query tc.response tc.context tc.ground_truth with
          | .error e => .error e
          | .ok ar =>
            .ok { retrieval_accuracy := ra, generation_quality := gq, faithfulness := fa,
                  context_relevance := cr, answer_relevance := ar }

/-- The test-case loop of evaluate_test_set, with the enumerate index i
selecting the random draws of each call from the environment. -/
def evalCasesFrom (envs : Nat → EvalEnv) : Nat → List TestCase → Except EvalError (List CaseResults)
  | _, [] => .ok []
  | i, tc :: rest =>
    match evaluate_single_query (envs i) tc with
    | .error e => .error e
    | .ok r =>
      match evalCasesFrom envs (i + 1) rest with
      | .error e => .error e
      | .ok rs => .ok (r :: rs)

/-- Extract the float list behind a list of scores when none of them is
NaN; a single NaN poisons every numpy reduction over the list. -/
def liftNoNaN : List (Option ℚ) → Option (List ℚ)
  | [] => some []
  | none :: _ => none
  | some x :: rest => (liftNoNaN rest).map (fun l => x :: l)

/-- np.mean over a score list that may contain NaN. -/
def npMeanO (xs : List (Option ℚ)) : Option ℚ :=
  match liftNoNaN xs with
  | none => none
  | some l => npMeanList l

/-- Population variance of a float list; np.std in the source is the
square root of this value, an irrational in general, so the summary
records the variance std_sq = std ** 2, which determines std uniquely. -/
def npVarO (xs : List (Option ℚ)) : Option ℚ :=
  match liftNoNaN xs with
  | none => none
  | some l =>
    match npMeanList l with
    | none => none
    | some m => some ((l.map (fun x => (x - m) ^ 2)).sum / l.length)

/-- The minimum of a non-empty float list. -/
def npMinList : List ℚ → Option ℚ
  | [] => none
  | x :: rest => some (rest.foldl (fun a b => min a b) x)

/-- The maximum of a non-empty float list. -/
def npMaxList : List ℚ → Option ℚ
  | [] => none
  | x :: rest => some (rest.foldl (fun a b => max a b) x)

/-- np.min over a score list that may contain NaN. -/
def npMinO (xs : List (Option ℚ)) : Option ℚ :=
  match liftNoNaN xs with
  | none => none
  | some l => npMinList l

/-- np.max over a score list that may contain NaN. -/
def npMaxO (xs : List (Option ℚ)) : Option ℚ :=
  match liftNoNaN xs with
  | none => none
  | some l => npMaxList l

/-- np.median: the middle element of the ascending sort for odd length,
the mean of the two middle elements for even length. -/
def npMedianList (xs : List ℚ) : Option ℚ :=
  let sorted := List.insertionSort (fun a b : ℚ => a ≤ b) xs
  if xs.length = 0 then none
  else if xs.length % 2 = 1 then sorted.get? (xs.length / 2)
  else
    match sorted.get? (xs.length / 2 - 1), sorted.get? (xs.length / 2) with
    | some a, some b => some ((a + b) / 2)
    | _, _ => none

/-- np.median over a score list that may contain NaN. -/
def npMedianO (xs : List (Option ℚ)) : Option ℚ :=
  match liftNoNaN xs with
  | none => none
  | some l => npMedianList l

/-- The per-metric summary dict of evaluate_test_set. -/
structure MetricStats where
  mean : Option ℚ
  std_sq : Option ℚ
  min : Option ℚ
  max : Option ℚ
  median : Option ℚ
deriving DecidableEq

/-- The aggregation of one metric score list in evaluate_test_set.
np.mean and np.std of a zero-size array only warn and give NaN, but
np.min raises ValueError (zero-size array to reduction operation), so an
empty score list is an error. -/
def aggregateStats (scores : List (Option ℚ)) : Except EvalError MetricStats :=
  if scores = [] then .error .zeroSizeReduction
  else .ok { mean := npMeanO scores, std_sq := npVarO scores, min := npMinO scores,
             max := npMaxO scores, median := npMedianO scores }

/-- The evaluation summary dict of evaluate_test_set. -/
structure EvaluationSummary where
  overall_score : Option ℚ
  metric_aggregates : List (String × MetricStats)
  test_set_size : Nat
  individual_results : List CaseResults
deriving DecidableEq

/-- RAGEvaluationFramework.evaluate_test_set: evaluate every test case
with every registered evaluator, aggregate per-metric score lists in
registry order, and set overall_score to np.mean of the per-metric mean
entries. -/
def evaluate_test_set (envs : Nat → EvalEnv) (test_cases : List TestCase) :
    Except EvalError EvaluationSummary :=
  match evalCasesFrom envs 0 test_cases with
  | .error e => .error e
  | .ok cases =>
    match aggregateStats (cases.map (fun c => c.retrieval_accuracy.score)) with
    | .error e => .error e
    | .ok raAgg =>
      match aggregateStats (cases.map (fun c => c.generation_quality.score)) with
      | .error e => .error e
      | .ok gqAgg =>
        match aggregateStats (cases.map (fun c => c.faithfulness.score)) with
        | .error e => .error e
        | .ok faAgg =>
          match aggregateStats (cases.map (fun c => c.context_relevance.score)) with
          | .error e => .error e
          | .ok crAgg =>
            match aggregateStats (cases.map (fun c => c.answer_relevance.score)) with
            | .error e => .error e
            | .ok arAgg =>
              .ok { overall_score := npMeanO [raAgg.mean, gqAgg.mean, faAgg.mean,
                      crAgg.mean, arAgg.mean]
                    metric_aggregates := [("retrieval_accuracy", raAgg),
                      ("generation_quality", gqAgg), ("faithfulness", faAgg),
                      ("context_relevance", crAgg), ("answer_relevance", arAgg)]
                    test_set_size := test_cases.length
                    individual_results := cases }

/-! ## Evaluation framework claims -/

lemma range_map_ne_nil (f : Nat → ℚ) {ctx : List String} (hc : ctx ≠ []) :
    (List.range ctx.length).map f ≠ [] := by
  simp only [ne_eq, List.map_eq_nil, List.range_eq_nil, List.length_eq_zero]
  exact hc

/-- The CaseResults value of a successful evaluate_single_query call. -/
def caseResultsOf (env : EvalEnv) (tc : TestCase) : CaseResults :=
  { retrieval_accuracy :=
      { metric_name := "retrieval_accuracy",
        score := npMeanList ((List.range tc.context.length).map env.relevance) },
    generation_quality :=
      { metric_name := "generation_quality",
        score := npMeanList [env.coherence, env.query_relevance, env.fluency,
          env.informativeness] },
    faithfulness :=
      { metric_name := "faithfulness",
        score := npMeanList [1 - env.hallucination_score, env.context_coverage,
          env.factual_consistency] },
    context_relevance :=
      { metric_name := "context_relevance",
        score := npMeanList ((List.range tc.context.length).map env.similarity) },
    answer_relevance :=
      { metric_name := "answer_relevance",
        score := npMeanList [env.direct_relevance, env.completeness, env.specificity] } }

lemma evaluate_single_query_ok (env : EvalEnv) (tc : TestCase) (hc : tc.context ≠ []) :
    evaluate_single_query env tc = .ok (caseResultsOf env tc) := by
  unfold evaluate_single_query RetrievalAccuracyEvaluator.evaluate
    GenerationQualityEvaluator.evaluate FaithfulnessEvaluator.evaluate
    ContextRelevanceEvaluator.evaluate AnswerRelevanceEvaluator.evaluate
  rw [if_neg (range_map_ne_nil env.similarity hc)]
  rfl

lemma npMeanList_some {l : List ℚ} (hne : l ≠ []) :
    npMeanList l = some (l.sum / l.length) := by
  unfold npMeanList
  rw [if_neg hne]

/-- The predicate that none of the five scores of a case result is NaN. -/
def allScoresSome (c : CaseResults) : Prop :=
  (∃ q, c.retrieval_accuracy.score = some q) ∧
  (∃ q, c.generation_quality.score = some q) ∧
  (∃ q, c.faithfulness.score = some q) ∧
  (∃ q, c.context_relevance.score = some q) ∧
  (∃ q, c.answer_relevance.score = some q)

lemma caseResultsOf_allScoresSome (env : EvalEnv) (tc : TestCase) (hc : tc.context ≠ []) :
    allScoresSome (caseResultsOf env tc) := by
  unfold allScoresSome caseResultsOf
  exact ⟨⟨_, npMeanList_some (range_map_ne_nil env.relevance hc)⟩,
    ⟨_, @npMeanList_some [env.coherence, env.query_relevance, env.fluency,
      env.informativeness] (by simp)⟩,
    ⟨_, @npMeanList_some [1 - env.hallucination_score, env.context_coverage,
      env.factual_consistency] (by simp)⟩,
    ⟨_, npMeanList_some (range_map_ne_nil env.similarity hc)⟩,
    ⟨_, @npMeanList_some [env.direct_relevance, env.completeness, env.specificity] (by simp)⟩⟩

lemma evalCasesFrom_ok (envs : Nat → EvalEnv) :
    ∀ (tcs : List TestCase) (i : Nat), (∀ tc ∈ tcs, tc.context ≠ []) →
      ∃ cases, evalCasesFrom envs i tcs = .ok cases ∧
        cases.length = tcs.length ∧ ∀ c ∈ cases, allScoresSome c := by
  intro tcs
  induction tcs with
  | nil =>
    intro i h
    exact ⟨[], rfl, rfl, by simp⟩
  | cons tc rest ih =>
    intro i h
    have hc : tc.context ≠ [] := h tc (by simp)
    have hrest : ∀ t ∈ rest, t.context ≠ [] := fun t ht => h t (by simp [ht])
    obtain ⟨cases, hcs, hlen, hall⟩ := ih (i + 1) hrest
    refine ⟨caseResultsOf (envs i) tc :: cases, ?_, by simp [hlen], ?_⟩
    · unfold evalCasesFrom
      rw [evaluate_single_query_ok (envs i) tc hc, hcs]
    · intro c hcmem
      rcases List.mem_cons.mp hcmem with rfl | hmem
      · exact caseResultsOf_allScoresSome (envs i) tc hc
      · exact hall c hmem

lemma liftNoNaN_all_some : ∀ (xs : List (Option ℚ)), (∀ x ∈ xs, ∃ q, x = some q) →
    ∃ l, liftNoNaN xs = some l ∧ l.length = xs.length := by
  intro xs
  induction xs with
  | nil =>
    intro h
    exact ⟨[], rfl, rfl⟩
  | cons x rest ih =>
    intro h
    obtain ⟨q, hq⟩ := h x (by simp)
    obtain ⟨l, hl, hlen⟩ := ih (fun y hy => h y (by simp [hy]))
    subst hq
    refine ⟨q :: l, ?_, by simp [hlen]⟩
    unfold liftNoNaN
    rw [hl]
    rfl

lemma npMeanO_some {xs : List (Option ℚ)} (hne : xs ≠ [])
    (hall : ∀ x ∈ xs, ∃ q, x = some q) : ∃ mv, npMeanO xs = some mv := by
  obtain ⟨l, hl, hlen⟩ := liftNoNaN_all_some xs hall
  have hlne : l ≠ [] := by
    intro hnil
    subst hnil
    exact hne (List.length_eq_zero.mp hlen.symm)
  refine ⟨l.sum / l.length, ?_⟩
  unfold npMeanO
  rw [hl]
  exact npMeanList_some hlne

lemma aggregateStats_ok (xs : List (Option ℚ)) (hne : xs ≠ []) :
    aggregateStats xs =
      .ok { mean := npMeanO xs, std_sq := npVarO xs, min := npMinO xs,
            max := npMaxO xs, median := npMedianO xs } := by
  unfold aggregateStats
  rw [if_neg hne]

/-- Claim C3: for every non-empty test set (whose test cases have
non-empty contexts, so that every evaluator returns a result),
evaluate_test_set succeeds and its overall_score equals the unweighted
arithmetic mean of the per-metric mean values across all five metrics of
the summary. -/
theorem c3_overall_mean (envs : Nat → EvalEnv) (test_cases : List TestCase)
    (hne : test_cases ≠ []) (hctx : ∀ tc ∈ test_cases, tc.context ≠ []) :
    ∃ (s : EvaluationSummary) (means : List ℚ), evaluate_test_set envs test_cases = .ok s ∧
      s.metric_aggregates.map (fun p => p.2.mean) = means.map some ∧
      means.length = 5 ∧
      s.overall_score = some (means.sum / means.length) := by
  obtain ⟨cases, hcs, hlen, hall⟩ := evalCasesFrom_ok envs test_cases 0 hctx
  have hcne : cases ≠ [] := by
    intro h
    subst h
    exact hne (List.length_eq_zero.mp hlen.symm)
  have hmapne : ∀ (f : CaseResults → Option ℚ), cases.map f ≠ [] := by
    intro f h
    exact hcne (List.map_eq_nil.mp h)
  have hallR : ∀ x ∈ cases.map (fun c => c.retrieval_accuracy.score), ∃ q, x = some q := by
    intro x hx
    obtain ⟨c, hcmem, rfl⟩ := List.mem_map.mp hx
    exact (hall c hcmem).1
  have hallG : ∀ x ∈ cases.map (fun c => c.generation_quality.score), ∃ q, x = some q := by
    intro x hx
    obtain ⟨c, hcmem, rfl⟩ := List.mem_map.mp hx
    exact (hall c hcmem).2.1
  have hallF : ∀ x ∈ cases.map (fun c => c.faithfulness.score), ∃ q, x = some q := by
    intro x hx
    obtain ⟨c, hcmem, rfl⟩ := List.mem_map.mp hx
    exact (hall c hcmem).2.2.1
  have hallC : ∀ x ∈ cases.map (fun c => c.context_relevance.score), ∃ q, x = some q := by
    intro x hx
    obtain ⟨c, hcmem, rfl⟩ := List.mem_map.mp hx
    exact (hall c hcmem).2.2.2.1
  have hallA : ∀ x ∈ cases.map (fun c => c.answer_relevance.score), ∃ q, x = some q := by
    intro x hx
    obtain ⟨c, hcmem, rfl⟩ := List.mem_map.mp hx
    exact (hall c hcmem).2.2.2.2
  obtain ⟨mR, hmR⟩ := npMeanO_some (hmapne _) hallR
  obtain ⟨mG, hmG⟩ := npMeanO_some (hmapne _) hallG
  obtain ⟨mF, hmF⟩ := npMeanO_some (hmapne _) hallF
  obtain ⟨mC, hmC⟩ := npMeanO_some (hmapne _) hallC
  obtain ⟨mA, hmA⟩ := npMeanO_some (hmapne _) hallA
  have eR := aggregateStats_ok (cases.map (fun c => c.retrieval_accuracy.score)) (hmapne _)
  have eG := aggregateStats_ok (cases.map (fun c => c.generation_quality.score)) (hmapne _)
  have eF := aggregateStats_ok (cases.map (fun c => c.faithfulness.score)) (hmapne _)
  have eC := aggregateStats_ok (cases.map (fun c => c.context_relevance.score)) (hmapne _)
  have eA := aggregateStats_ok (cases.map (fun c => c.answer_relevance.score)) (hmapne _)
  refine ⟨?_, [mR, mG, mF, mC, mA], ?_, ?_, rfl, ?_⟩
  · exact
      { overall_score := npMeanO [some mR, some mG, some mF, some mC, some mA]
        metric_aggregates :=
          [("retrieval_accuracy",
            { mean := npMeanO (cases.map (fun c => c.retrieval_accuracy.score)),
              std_sq := npVarO (cases.map (fun c => c.retrieval_accuracy.score)),
              min := npMinO (cases.map (fun c => c.retrieval_accuracy.score)),
              max := npMaxO (cases.map (fun c => c.retrieval_accuracy.score)),
              median := npMedianO (cases.map (fun c => c.retrieval_accuracy.score)) }),
           ("generation_quality",
            { mean := npMeanO (cases.map (fun c => c.generation_quality.score)),
              std_sq := npVarO (cases.map (fun c => c.generation_quality.score)),
              min := npMinO (cases.map (fun c => c.generation_quality.score)),
              max := npMaxO (cases.map (fun c => c.generation_quality.score)),
              median := npMedianO (cases.map (fun c => c.generation_quality.score)) }),
           ("faithfulness",
            { mean := npMeanO (cases.map (fun c => c.faithfulness.score)),
              std_sq := npVarO (cases.map (fun c => c.faithfulness.score)),
              min := npMinO (cases.map (fun c => c.faithfulness.score)),
              max := npMaxO (cases.map (fun c => c.faithfulness.score)),
              median := npMedianO (cases.map (fun c => c.faithfulness.score)) }),
           ("context_relevance",
            { mean := npMeanO (cases.map (fun c => c.context_relevance.score)),
              std_sq := npVarO (cases.map (fun c => c.context_relevance.score)),
              min := npMinO (cases.map (fun c => c.context_relevance.score)),
              max := npMaxO (cases.map (fun c => c.context_relevance.score)),
              median := npMedianO (cases.map (fun c => c.context_relevance.score)) }),
           ("answer_relevance",
            { mean := npMeanO (cases.map (fun c => c.answer_relevance.score)),
              std_sq := npVarO (cases.map (fun c => c.answer_relevance.score)),
              min := npMinO (cases.map (fun c => c.answer_relevance.score)),
              max := npMaxO (cases.map (fun c => c.answer_relevance.score)),
              median := npMedianO (cases.map (fun c => c.answer_relevance.score)) })]
        test_set_size := test_cases.length
        individual_results := cases }
  · unfold evaluate_test_set
    rw [hcs]
    simp only [eR, eG, eF, eC, eA, hmR, hmG, hmF, hmC, hmA]
  · simp only [List.map_cons, List.map_nil, hmR, hmG, hmF, hmC, hmA]
  · show npMeanO [some mR, some mG, some mF, some mC, some mA] = _
    unfold npMeanO
    simp only [liftNoNaN, Option.map]
    rw [@npMeanList_some [mR, mG, mF, mC, mA] (by simp)]

/-- An environment in which every np.random draw comes out as one half,
used by the concrete evaluation witnesses and counterexamples. -/
def envHalf : EvalEnv :=
  { relevance := fun _ => 1/2, coherence := 1/2, query_relevance := 1/2, fluency := 1/2,
    informativeness := 1/2, hallucination_score := 1/2, context_coverage := 1/2,
    factual_consistency := 1/2, similarity := fun _ => 1/2, direct_relevance := 1/2,
    completeness := 1/2, specificity := 1/2 }

/-- A test case with a two-element context used by the aggregation
witness. -/
def tcEx : TestCase := { query := "q", response := "r", context := ["c1", "c2"], ground_truth := none }

/-- Claim C3, witness at the concrete one-case test set tcEx. -/
theorem c3_overall_mean_witness :
    (([tcEx] : List TestCase) ≠ [] ∧ ∀ tc ∈ [tcEx], tc.context ≠ []) ∧
    (∃ (s : EvaluationSummary) (means : List ℚ),
      evaluate_test_set (fun _ => envHalf) [tcEx] = .ok s ∧
      s.metric_aggregates.map (fun p => p.2.mean) = means.map some ∧
      means.length = 5 ∧
      s.overall_score = some (means.sum / means.length)) :=
  ⟨⟨by decide, by decide⟩, c3_overall_mean (fun _ => envHalf) [tcEx] (by decide) (by decide)⟩

/-- Claim C8, counterexample: running evaluate_test_set on zero test
cases raises ValueError (np.min of a zero-size array during aggregation)
instead of returning an empty summary with a null overall_score. -/
theorem c8_counterexample :
    evaluate_test_set (fun _ => envHalf) [] = .error .zeroSizeReduction := rfl

/-- Claim C8 (amended): for every environment, running the aggregator on
zero test cases raises ValueError — np.mean and np.std of the empty score
list only produce NaN, but np.min of a zero-size array raises — rather
than returning an empty summary. -/
theorem c8_empty_raises (envs : Nat → EvalEnv) :
    evaluate_test_set envs [] = .error .zeroSizeReduction := rfl

/-- The interval [0, 1] in which every evaluator score is claimed to
lie. -/
def inUnit (q : ℚ) : Prop := 0 ≤ q ∧ q ≤ 1

/-- All random draws of an environment lie in [0, 1]; the uniform ranges
the source draws from are all sub-intervals of [0, 1], so this holds for
every draw the program can make. -/
def envInUnit (env : EvalEnv) : Prop :=
  (∀ i, inUnit (env.relevance i)) ∧ inUnit env.coherence ∧ inUnit env.query_relevance ∧
  inUnit env.fluency ∧ inUnit env.informativeness ∧ inUnit env.hallucination_score ∧
  inUnit env.context_coverage ∧ inUnit env.factual_consistency ∧
  (∀ i, inUnit (env.similarity i)) ∧ inUnit env.direct_relevance ∧
  inUnit env.completeness ∧ inUnit env.specificity

lemma npMeanList_inUnit {l : List ℚ} (hne : l ≠ []) (h : ∀ x ∈ l, inUnit x) :
    ∃ s, npMeanList l = some s ∧ inUnit s := by
  refine ⟨l.sum / l.length, npMeanList_some hne, ?_, ?_⟩
  · apply div_nonneg
    · exact List.sum_nonneg (fun x hx => (h x hx).1)
    · exact Nat.cast_nonneg l.length
  · have hpos : (0 : ℚ) < l.length := by
      have := List.length_pos.mpr hne
      exact_mod_cast this
    rw [div_le_one hpos]
    have hle := List.sum_le_card_nsmul l 1 (fun x hx => (h x hx).2)
    simpa using hle

/-- Claim C9, counterexample: with an empty context,
RetrievalAccuracyEvaluator.evaluate returns a result whose score is NaN
(np.mean of an empty list), which does not lie in [0, 1], and
ContextRelevanceEvaluator.evaluate raises ValueError (min() of an empty
sequence) and returns no EvaluationResult at all. -/
theorem c9_counterexample :
    RetrievalAccuracyEvaluator.evaluate envHalf "q" "r" [] none =
      .ok { metric_name := "retrieval_accuracy", score := none } ∧
    ContextRelevanceEvaluator.evaluate envHalf "q" "r" [] none = .error .emptySequenceMin :=
  ⟨rfl, rfl⟩

/-- Claim C9 (amended): for every evaluator variant and every input whose
context is non-empty and whose random draws lie in [0, 1] (the uniform
ranges of the source guarantee this), evaluate returns an
EvaluationResult whose score lies in [0, 1]. With an empty context,
RetrievalAccuracy and ContextRelevance instead produce a NaN score and a
ValueError respectively. -/
theorem c9_score_range (env : EvalEnv) (query response : String) (context : List String)
    (ground_truth : Option String) (henv : envInUnit env) (hc : context ≠ []) :
    (∃ r s, RetrievalAccuracyEvaluator.evaluate env query response context ground_truth =
      .ok r ∧ r.score = some s ∧ inUnit s) ∧
    (∃ r s, GenerationQualityEvaluator.evaluate env query response context ground_truth =
      .ok r ∧ r.score = some s ∧ inUnit s) ∧
    (∃ r s, FaithfulnessEvaluator.evaluate env query response context ground_truth =
      .ok r ∧ r.score = some s ∧ inUnit s) ∧
    (∃ r s, ContextRelevanceEvaluator.evaluate env query response context ground_truth =
      .ok r ∧ r.score = some s ∧ inUnit s) ∧
    (∃ r s, AnswerRelevanceEvaluator.evaluate env query response context ground_truth =
      .ok r ∧ r.score = some s ∧ inUnit s) := by
  obtain ⟨hrel, hcoh, hqr, hflu, hinf, hhal, hcov, hfc, hsim, hdir, hcom, hspe⟩ := henv
  refine ⟨?_, ?_, ?_, ?_, ?_⟩
  · have hb : ∀ x ∈ (List.range context.length).map env.relevance, inUnit x := by
      intro x hx
      obtain ⟨i, hi, rfl⟩ := List.mem_map.mp hx
      exact hrel i
    obtain ⟨s, hs, hu⟩ := npMeanList_inUnit (range_map_ne_nil env.relevance hc) hb
    exact ⟨_, s, rfl, hs, hu⟩
  · have hb : ∀ x ∈ [env.coherence, env.query_relevance, env.fluency, env.informativeness],
        inUnit x := by
      intro x hx
      simp only [List.mem_cons, List.not_mem_nil, or_false] at hx
      rcases hx with rfl | rfl | rfl | rfl
      · exact hcoh
      · exact hqr
      · exact hflu
      · exact hinf
    obtain ⟨s, hs, hu⟩ := npMeanList_inUnit (by simp) hb
    exact ⟨_, s, rfl, hs, hu⟩
  · have hb : ∀ x ∈ [1 - env.hallucination_score, env.context_coverage,
        env.factual_consistency], inUnit x := by
      intro x hx
      simp only [List.mem_cons, List.not_mem_nil, or_false] at hx
      obtain ⟨h0, h1⟩ := hhal
      rcases hx with rfl | rfl | rfl
      · exact ⟨by linarith, by linarith⟩
      · exact hcov
      · exact hfc
    obtain ⟨s, hs, hu⟩ := npMeanList_inUnit (by simp) hb
    exact ⟨_, s, rfl, hs, hu⟩
  · have hb : ∀ x ∈ (List.range context.length).map env.similarity, inUnit x := by
      intro x hx
      obtain ⟨i, hi, rfl⟩ := List.mem_map.mp hx
      exact hsim i
    obtain ⟨s, hs, hu⟩ := npMeanList_inUnit (range_map_ne_nil env.similarity hc) hb
    refine ⟨{ metric_name := "context_relevance",
              score := npMeanList ((List.range context.length).map env.similarity) },
            s, ?_, hs, hu⟩
    unfold ContextRelevanceEvaluator.evaluate
    rw [if_neg (range_map_ne_nil env.similarity hc)]
  · have hb : ∀ x ∈ [env.direct_relevance, env.completeness, env.specificity], inUnit x := by
      intro x hx
      simp only [List.mem_cons, List.not_mem_nil, or_false] at hx
      rcases hx with rfl | rfl | rfl
      · exact hdir
      · exact hcom
      · exact hspe
    obtain ⟨s, hs, hu⟩ := npMeanList_inUnit (by simp) hb
    exact ⟨_, s, rfl, hs, hu⟩

/-- Claim C9 (amended), witness at the all-halves environment and the
one-element context. -/
theorem c9_score_range_witness :
    (envInUnit envHalf ∧ (["c"] : List String) ≠ []) ∧
    ((∃ r s, RetrievalAccuracyEvaluator.evaluate envHalf "q" "r" ["c"] none =
      .ok r ∧ r.score = some s ∧ inUnit s) ∧
    (∃ r s, GenerationQualityEvaluator.evaluate envHalf "q" "r" ["c"] none =
      .ok r ∧ r.score = some s ∧ inUnit s) ∧
    (∃ r s, FaithfulnessEvaluator.evaluate envHalf "q" "r" ["c"] none =
      .ok r ∧ r.score = some s ∧ inUnit s) ∧
    (∃ r s, ContextRelevanceEvaluator.evaluate envHalf "q" "r" ["c"] none =
      .ok r ∧ r.score = some s ∧ inUnit s) ∧
    (∃ r s, AnswerRelevanceEvaluator.evaluate envHalf "q" "r" ["c"] none =
      .ok r ∧ r.score = some s ∧ inUnit s)) := by
  have hu : inUnit ((1 : ℚ)/2) := by constructor <;> norm_num
  have he : envInUnit envHalf :=
    ⟨fun _ => hu, hu, hu, hu, hu, hu, hu, hu, fun _ => hu, hu, hu, hu⟩
  exact ⟨⟨he, by decide⟩, c9_score_range envHalf "q" "r" ["c"] none he (by decide)⟩
